import Mathlib

/-! A shallow embedding of car-finder (`main.go`).

The crawler keeps a map `cars : map[string]*car`, fills it from three HTML
callbacks (`a.item-link`, `p.list_price`, `aside.body_aside`), enriches a record
through two HTTP lookups and finally writes `result.csv`.

Go strings are modelled by `String` (a list of characters); every pattern the
program matches is ASCII, so a byte of the Go string that is not an ASCII
letter or digit behaves like any other non-matching character here.
Go's `int` is the 64-bit two's-complement integer: values are `Int`, wrapped
explicitly by `wrap64` where the program does arithmetic.
-/

namespace CarFinder

/-! ## Character classes of the two regular expressions -/

/-- The class `[0-9]` (also `\d`, which is ASCII-only in Go's regexp). -/
def isDigit09 (c : Char) : Bool := decide ('0' ≤ c) && decide (c ≤ '9')

/-- The class `[a-zA-Z]`. -/
def isLetterAZ (c : Char) : Bool :=
  (decide ('a' ≤ c) && decide (c ≤ 'z')) || (decide ('A' ≤ c) && decide (c ≤ 'Z'))

/-! ## `getPlateFromText` -/

/-- Does the regular expression `[a-zA-Z]{3}\d{3}` match at the start of the input? -/
def matchPlateAt : List Char → Bool
  | a :: b :: c :: d :: e :: f :: _ =>
      isLetterAZ a && isLetterAZ b && isLetterAZ c &&
      isDigit09 d && isDigit09 e && isDigit09 f
  | _ => false

/-- The leftmost match of `[a-zA-Z]{3}\d{3}` (what `re.FindString` returns), or the
empty string when no position matches. -/
def findPlate : List Char → List Char
  | [] => []
  | x :: rest => if matchPlateAt (x :: rest) then (x :: rest).take 6 else findPlate rest

/-- Source: `getPlateFromText` (main.go, lines 35-38). -/
def getPlateFromText (s : String) : String := ⟨findPlate s.data⟩

/-- A plate: exactly six characters, three of `[a-zA-Z]` followed by three of `[0-9]`. -/
def IsPlate (p : List Char) : Prop :=
  p.length = 6 ∧ (∀ c ∈ p.take 3, isLetterAZ c = true) ∧ (∀ c ∈ p.drop 3, isDigit09 c = true)

instance (p : List Char) : Decidable (IsPlate p) := by
  unfold IsPlate
  infer_instance

/-! ## `strconv.Itoa`, `strconv.Atoi` and 64-bit `int` arithmetic -/

/-- Go's `int` subtraction wraps around in 64-bit two's complement. -/
def wrap64 (x : Int) : Int := (x + 2 ^ 63) % 2 ^ 64 - 2 ^ 63

/-- The call `strconv.Itoa`: decimal digits, with a leading `-` for a negative number. -/
def Itoa : Int → String
  | Int.ofNat n => Nat.repr n
  | Int.negSucc n => "-" ++ Nat.repr (n + 1)

/-- The two errors of `strconv`: `ErrSyntax` and `ErrRange`. -/
inductive NumError where
  | errSyntax
  | errRange
deriving DecidableEq, Repr

/-- The digit loop of `strconv.ParseUint` for base 10 and 64 bits, `n` being the value read so
far. A character outside `0`..`9` stops the scan with `ErrSyntax` and value 0; a
digit at which the value would leave `uint64` stops the scan with `ErrRange` and
value `2^64 - 1`, whatever follows it. -/
def parseUintLoop : Nat → List Char → Nat × Option NumError
  | n, [] => (n, none)
  | n, c :: cs =>
    if isDigit09 c then
      if (2 ^ 64 - 1) / 10 + 1 ≤ n then (2 ^ 64 - 1, some .errRange)
      else
        let n10 := n * 10
        let n1 := (n10 + (c.toNat - 48)) % 2 ^ 64
        if n1 < n10 ∨ 2 ^ 64 - 1 < n1 then (2 ^ 64 - 1, some .errRange)
        else parseUintLoop n1 cs
    else (0, some .errSyntax)

/-- The call `strconv.ParseUint(s, 10, 0)` on a 64-bit platform. -/
def ParseUint (cs : List Char) : Nat × Option NumError :=
  if cs.isEmpty then (0, some .errSyntax) else parseUintLoop 0 cs

/-- The call `strconv.ParseInt(s, 10, 0)` on a 64-bit platform: an optional sign, then
`ParseUint`; a syntax error gives 0, a value outside `int` gives the nearest bound
with `ErrRange`. -/
def ParseInt (cs : List Char) : Int × Option NumError :=
  if cs.isEmpty then (0, some .errSyntax)
  else
    let neg : Bool := cs.head? == some '-'
    let signed : Bool := neg || cs.head? == some '+'
    let ds : List Char := if signed then cs.tail else cs
    match ParseUint ds with
    | (_, some .errSyntax) => (0, some .errSyntax)
    | (un, _) =>
      if !neg && decide (2 ^ 63 ≤ un) then (2 ^ 63 - 1, some .errRange)
      else if neg && decide (2 ^ 63 < un) then (-(2 ^ 63), some .errRange)
      else (if neg then -(un : Int) else (un : Int), none)

/-- The call `strconv.Atoi` on a 64-bit platform, as the pair (value, `err == nil`). Its fast
path for strings shorter than 19 bytes returns what `ParseInt` returns for them. -/
def Atoi (s : String) : Int × Bool :=
  let r := ParseInt s.data
  (r.1, r.2.isNone)

/-! ## The `p.list_price` regular expression -/

/-- The call `reg.ReplaceAllString(text, repl)` for the expression `[^0-9]+`: every maximal run
of characters outside `[0-9]` is replaced by one copy of `repl`. `inRun` tells
whether the previous character already belonged to the current run. -/
def replaceNonDigitRuns (repl : List Char) : Bool → List Char → List Char
  | _, [] => []
  | inRun, c :: cs =>
      if isDigit09 c then c :: replaceNonDigitRuns repl false cs
      else (if inRun then [] else repl) ++ replaceNonDigitRuns repl true cs

/-- The price string of the `p.list_price` handler (main.go, lines 242-245):
non-digits removed, then cut to six bytes. -/
def extractPrice (text : String) : String :=
  let price := replaceNonDigitRuns [] false text.data
  let price := if price.length > 6 then price.take 6 else price
  ⟨price⟩

/-! ## Records and the `cars` map -/

/-- Source: `type car struct` (main.go, lines 148-158). A Go string field is never nil;
its zero value is the empty string. -/
structure car where
  estPrice : String := ""
  link : String := ""
  listPrice : String := ""
  diff : String := ""
  plate : String := ""
  modelId : String := ""
  distance : String := ""
  year : String := ""
  regdate : String := ""
deriving DecidableEq, Repr

/-- The map `map[string]*car`: its entries, in the order a `range` loop visits them.
Each key is bound to a record of its own (every `&car{...}` is a fresh allocation). -/
abbrev Cars := List (String × car)

/-- The lookup `cars[k]`: `none` is the nil pointer of a missing key. -/
def carsGet : Cars → String → Option car
  | [], _ => none
  | (k1, c) :: rest, k => if k1 = k then some c else carsGet rest k

/-- The assignment `cars[k] = c` (and, for an existing key, writing through the pointer). -/
def carsSet : Cars → String → car → Cars
  | [], k, c => [(k, c)]
  | (k1, c1) :: rest, k, c => if k1 = k then (k, c) :: rest else (k1, c1) :: carsSet rest k c

/-! ## Program state -/

/-- What the program prints on standard output. -/
inductive Printed where
  | linkFound (text link : String)
  | blocketPrice (price : String)
  | plateFound (plate : String)
  | bilpriserPrice (price : String)
deriving DecidableEq, Repr

/-- The variables of `main` the callbacks share, with the observable trace. -/
structure State where
  cars : Cars := []
  activeIndex : String := "0"
  out : List Printed := []
  requests : List String := []
deriving DecidableEq, Repr

/-- How a piece of the program ends: it returns, `log.Fatal` exits the process, or the
runtime panics on a nil pointer. The state is the one reached at that moment. -/
inductive Outcome where
  | ok (s : State)
  | fatal (s : State)
  | panicked (s : State)
deriving DecidableEq, Repr

/-- The state an outcome carries. -/
def Outcome.state : Outcome → State
  | .ok s => s
  | .fatal s => s
  | .panicked s => s

/-- Sequencing: the rest of the program runs only after a normal return. -/
def Outcome.andThen (o : Outcome) (f : State → Outcome) : Outcome :=
  match o with
  | .ok s => f s
  | .fatal s => .fatal s
  | .panicked s => .panicked s

/-! ## The valuation client -/

/-- What the outside world answers to the registry lookup of `getCarInfo`. -/
inductive RegistryReply where
  | reqErr   -- `http.NewRequest` rejects the URL
  | getErr   -- `httpClient.Do` fails: timeout or transport error
  | readErr  -- `ioutil.ReadAll` fails
  | jsonErr  -- `json.Unmarshal` fails: malformed payload
  | vehicle (modelId : String) (distance : Int) (year regdate : String)
deriving DecidableEq, Repr

/-- What the outside world answers to the valuation lookup of `getCarPrice`. -/
inductive PriceReply where
  | reqErr
  | getErr
  | readErr
  | jsonErr
  | price (valued : String)
deriving DecidableEq, Repr

/-- The URL of the registry lookup. -/
def registryUrl (c : car) : String :=
  "https://www.bilpriser.se/api/?bpapi_action=get_vehicle_registry_se&regnr=" ++ c.plate

/-- The URL of the valuation lookup (the `fmt.Sprintf` of `getCarPrice`). -/
def valuationUrl (c : car) : String :=
  "https://www.bilpriser.se/api/?bpapi_action=get_values&model_id=" ++ c.modelId ++
  "&y=" ++ c.year ++ "&distance=" ++ c.distance ++
  "&value_decrement_start=" ++ c.regdate ++ "&regnr=" ++ c.plate

/-- Source: `getCarInfo` (main.go, lines 113-146). The pointer argument is the record
stored under key `k`. Every error branch is `log.Fatal`. -/
def getCarInfo (s : State) (k : String) (reply : RegistryReply) : Outcome :=
  match carsGet s.cars k with
  | none => .panicked s
  | some c =>
    match reply with
    | .reqErr => .fatal s
    | .getErr => .fatal { s with requests := s.requests ++ [registryUrl c] }
    | .readErr => .fatal { s with requests := s.requests ++ [registryUrl c] }
    | .jsonErr => .fatal { s with requests := s.requests ++ [registryUrl c] }
    | .vehicle m d y r =>
      .ok { s with
        requests := s.requests ++ [registryUrl c]
        cars := carsSet s.cars k { c with modelId := m, distance := Itoa d, year := y, regdate := r } }

/-- Source: `getCarPrice` (main.go, lines 67-100). -/
def getCarPrice (s : State) (k : String) (reply : PriceReply) : Outcome :=
  match carsGet s.cars k with
  | none => .panicked s
  | some c =>
    match reply with
    | .reqErr => .fatal s
    | .getErr => .fatal { s with requests := s.requests ++ [valuationUrl c] }
    | .readErr => .fatal { s with requests := s.requests ++ [valuationUrl c] }
    | .jsonErr => .fatal { s with requests := s.requests ++ [valuationUrl c] }
    | .price p =>
      .ok { s with
        requests := s.requests ++ [valuationUrl c]
        out := s.out ++ [.bilpriserPrice p]
        cars := carsSet s.cars k { c with estPrice := p } }

/-! ## The three HTML callbacks of `main` -/

/-- The `a.item-link` callback (main.go, lines 227-235), up to the nested `c.Visit`,
whose callbacks are the events that follow. -/
def onItemLink (s : State) (index : Nat) (text link : String) : Outcome :=
  .ok { s with
    out := s.out ++ [.linkFound text link]
    activeIndex := Itoa index
    cars := carsSet s.cars (Itoa index) { link := link } }

/-- The `p.list_price` callback (main.go, lines 237-253). `index` is `e.Index`, the
position of the matched element among the `p.list_price` elements of its page. -/
def onListPrice (s : State) (index : Nat) (text : String) : Outcome :=
  let price := extractPrice text
  match carsGet s.cars (Itoa index) with
  | none => .panicked s
  | some c =>
    let c1 := { c with listPrice := price }
    let estAsInt := (Atoi c1.estPrice).1
    let priceAsInt := (Atoi price).1
    let c2 := { c1 with diff := Itoa (wrap64 (estAsInt - priceAsInt)) }
    .ok { s with
      cars := carsSet s.cars (Itoa index) c2
      out := s.out ++ [.blocketPrice price] }

/-- The `aside.body_aside` callback (main.go, lines 255-263). -/
def onBodyAside (s : State) (text : String) (registry : RegistryReply)
    (valuation : PriceReply) : Outcome :=
  let plate := getPlateFromText text
  if plate.length > 0 then
    let s1 := { s with out := s.out ++ [.plateFound plate] }
    match carsGet s1.cars s1.activeIndex with
    | none => .panicked s1
    | some c =>
      let s2 := { s1 with cars := carsSet s1.cars s1.activeIndex { c with plate := plate } }
      (getCarInfo s2 s2.activeIndex registry).andThen
        (fun s3 => getCarPrice s3 s3.activeIndex valuation)
  else .ok s

/-- One callback invocation, with what the outside world answers during it. -/
inductive Event where
  | itemLink (index : Nat) (text link : String)
  | listPrice (index : Nat) (text : String)
  | bodyAside (text : String) (registry : RegistryReply) (valuation : PriceReply)
deriving DecidableEq, Repr

/-- Run one callback. -/
def step (s : State) : Event → Outcome
  | .itemLink i text link => onItemLink s i text link
  | .listPrice i text => onListPrice s i text
  | .bodyAside text reg val => onBodyAside s text reg val

/-- Run callbacks one after the other; the first that does not return ends the run. -/
def run (s : State) : List Event → Outcome
  | [] => .ok s
  | e :: es =>
    match step s e with
    | .ok s1 => run s1 es
    | .fatal s1 => .fatal s1
    | .panicked s1 => .panicked s1

/-- The state at the start of `main` (lines 221-225). -/
def initState : State := { cars := [], activeIndex := "0", out := [], requests := [] }

/-! ## Export -/

/-- Source: `getFieldString` (main.go, lines 206-210): the field of that name, by
reflection. A name that is no field gives the zero `reflect.Value`, whose
`String()` is the text below. -/
def getFieldString (c : car) (field : String) : String :=
  if field = "estPrice" then c.estPrice
  else if field = "link" then c.link
  else if field = "listPrice" then c.listPrice
  else if field = "diff" then c.diff
  else if field = "plate" then c.plate
  else if field = "modelId" then c.modelId
  else if field = "distance" then c.distance
  else if field = "year" then c.year
  else if field = "regdate" then c.regdate
  else "<invalid Value>"

/-- The header row of `saveToCsv` (main.go, lines 171-181). -/
def headers : List String :=
  ["Plate", "Estimated", "Blocket", "Diff", "Link", "Model Id", "Distance", "Year", "Reg Date"]

/-- The row `saveToCsv` builds for one record (main.go, lines 189-199). -/
def csvRow (c : car) : List String :=
  let s : List String := []
  let s := s ++ [getFieldString c "plate"]
  let s := s ++ [getFieldString c "estPrice"]
  let s := s ++ [getFieldString c "listPrice"]
  let s := s ++ [getFieldString c "diff"]
  let s := s ++ [getFieldString c "link"]
  let s := s ++ [getFieldString c "modelId"]
  let s := s ++ [getFieldString c "distance"]
  let s := s ++ [getFieldString c "year"]
  let s := s ++ [getFieldString c "regdate"]
  s

/-- The body of the `range` loop of `saveToCsv` over the entries in visiting order:
the rows handed to `writer.Write`. -/
def csvDataRows : Cars → List (List String)
  | [] => []
  | (_, c) :: rest =>
      if (getFieldString c "plate").length = 0 then csvDataRows rest
      else csvRow c :: csvDataRows rest

/-- Source: `saveToCsv` (main.go, lines 160-204): all rows handed to `writer.Write`. -/
def saveToCsv (cars : Cars) : List (List String) :=
  headers :: csvDataRows cars

/-- The key of the record a callback writes to: the element index for the `a.item-link` and
`p.list_price` callbacks, the shared `activeIndex` for `aside.body_aside`. -/
def Event.target (s : State) : Event → String
  | .itemLink i _ _ => Itoa i
  | .listPrice i _ => Itoa i
  | .bodyAside _ _ _ => s.activeIndex

/-- Is the event a price or plate extraction (not a discovery)? -/
def Event.isExtraction : Event → Bool
  | .itemLink _ _ _ => false
  | .listPrice _ _ => true
  | .bodyAside _ _ _ => true

/-- Did the registry lookup fail (any of the error branches of `getCarInfo`)? -/
def RegistryReply.failed : RegistryReply → Bool
  | .vehicle _ _ _ _ => false
  | _ => true

/-! ## Sample data -/

/-- A fully enriched record. -/
def enrichedCar : car where
  estPrice := "201500"
  link := "/a"
  listPrice := "185000"
  diff := "16500"
  plate := "ABC123"
  modelId := "m7"
  distance := "1200"
  year := "2014"
  regdate := "2014-03-01"

/-! ### Lemmas about `findPlate` -/

theorem matchPlateAt_iff (l : List Char) :
    matchPlateAt l = true ↔ ∃ p post, l = p ++ post ∧ IsPlate p := by
  constructor
  · intro h
    match l, h with
    | a :: b :: c :: d :: e :: f :: post, h =>
      simp only [matchPlateAt, Bool.and_eq_true] at h
      refine ⟨[a, b, c, d, e, f], post, rfl, rfl, ?_, ?_⟩
      · intro x hx
        simp at hx
        rcases hx with rfl | rfl | rfl <;> simp [h]
      · intro x hx
        simp at hx
        rcases hx with rfl | rfl | rfl <;> simp [h]
  · rintro ⟨p, post, rfl, hlen, hl, hd⟩
    match p, hlen with
    | [a, b, c, d, e, f], _ =>
      simp at hl hd
      simp [matchPlateAt, hl, hd]

theorem findPlate_spec (l : List Char) :
    (findPlate l = [] ∧ ∀ pre p post, l = pre ++ p ++ post → ¬ IsPlate p) ∨
    (∃ pre post, l = pre ++ findPlate l ++ post ∧ IsPlate (findPlate l) ∧
      ∀ pre2 p post2, l = pre2 ++ p ++ post2 → IsPlate p → pre.length ≤ pre2.length) := by
  induction l with
  | nil =>
    left
    refine ⟨rfl, ?_⟩
    intro pre p post h hp
    have : p = [] := by
      have h2 := congrArg List.length h
      simp at h2
      exact List.length_eq_zero.mp (by omega)
    rw [this] at hp
    exact absurd hp.1 (by simp)
  | cons x rest ih =>
    by_cases hm : matchPlateAt (x :: rest) = true
    · right
      obtain ⟨p, post, hl, hp⟩ := (matchPlateAt_iff _).mp hm
      have hfp : findPlate (x :: rest) = p := by
        simp only [findPlate, hm, if_true]
        rw [hl, List.take_left' hp.1]
      refine ⟨[], post, ?_, ?_, ?_⟩
      · rw [hfp]; simpa using hl
      · rw [hfp]; exact hp
      · intro _ _ _ _ _; simp
    · have hfp : findPlate (x :: rest) = findPlate rest := by
        simp [findPlate, hm]
      have hno : ∀ p post, x :: rest = p ++ post → ¬ IsPlate p := by
        intro p post h hp
        exact hm ((matchPlateAt_iff _).mpr ⟨p, post, h, hp⟩)
      rcases ih with ⟨he, hnone⟩ | ⟨pre, post, hl, hp, hleft⟩
      · left
        refine ⟨by rw [hfp, he], ?_⟩
        intro pre p post h hp
        cases pre with
        | nil => exact hno p post (by simpa using h) hp
        | cons y pre1 =>
          simp at h
          exact hnone pre1 p post (by simpa using h.2) hp
      · right
        refine ⟨x :: pre, post, ?_, ?_, ?_⟩
        · rw [hfp]; simp; simpa using hl
        · rw [hfp]; exact hp
        · intro pre2 p post2 h hp2
          cases pre2 with
          | nil => exact absurd hp2 (hno p post2 (by simpa using h))
          | cons y pre1 =>
            simp at h
            have := hleft pre1 p post2 (by simpa using h.2) hp2
            simp; omega

/-! ### Lemmas about the `cars` map -/

theorem carsGet_carsSet_same (m : Cars) (k : String) (c : car) :
    carsGet (carsSet m k c) k = some c := by
  induction m with
  | nil => simp [carsSet, carsGet]
  | cons e rest ih =>
    obtain ⟨k1, c1⟩ := e
    by_cases h : k1 = k
    · simp [carsSet, carsGet, h]
    · simp [carsSet, carsGet, h, ih]

theorem carsGet_carsSet_other (m : Cars) (k k2 : String) (c : car) (h : k ≠ k2) :
    carsGet (carsSet m k c) k2 = carsGet m k2 := by
  induction m with
  | nil => simp [carsSet, carsGet, h]
  | cons e rest ih =>
    obtain ⟨k1, c1⟩ := e
    by_cases h1 : k1 = k
    · subst h1
      simp [carsSet, carsGet, h]
    · by_cases h2 : k1 = k2
      · subst h2
        simp [carsSet, carsGet, h1]
      · simp [carsSet, carsGet, h1, h2, ih]

/-! ### Lemmas about the price text -/

theorem replaceNonDigitRuns_nil (b : Bool) (l : List Char) :
    replaceNonDigitRuns [] b l = l.filter isDigit09 := by
  induction l generalizing b with
  | nil => rfl
  | cons c cs ih =>
    by_cases h : isDigit09 c = true
    · simp [replaceNonDigitRuns, h, ih]
    · simp [replaceNonDigitRuns, h, ih]

theorem extractPrice_data (text : String) :
    (extractPrice text).data = (text.data.filter isDigit09).take 6 := by
  simp only [extractPrice, replaceNonDigitRuns_nil]
  split
  · rfl
  · rename_i h
    rw [List.take_of_length_le (by omega)]

theorem extractPrice_digits (text : String) :
    ∀ ch ∈ (extractPrice text).data, isDigit09 ch = true := by
  intro ch h
  rw [extractPrice_data] at h
  have := List.mem_of_mem_take h
  simpa using (List.mem_filter.mp this).2

theorem onListPrice_ok (s : State) (j : Nat) (text : String) (c : car)
    (h : carsGet s.cars (Itoa j) = some c) :
    onListPrice s j text = .ok { s with
      cars := carsSet s.cars (Itoa j) { c with
        listPrice := extractPrice text
        diff := Itoa (wrap64 ((Atoi c.estPrice).1 - (Atoi (extractPrice text)).1)) }
      out := s.out ++ [.blocketPrice (extractPrice text)] } := by
  simp [onListPrice, h]

/-! ## Plate extraction -/

/-- C10. For every string `s`, `getPlateFromText s` is the empty string or a contiguous
six-character piece of `s` made of three ASCII letters and three ASCII digits; it
is empty exactly when `s` has no such piece, and otherwise it is the leftmost one. -/
theorem getPlateFromText_leftmost (s : String) :
    (getPlateFromText s = "" ∨
      ∃ pre post, s.data = pre ++ (getPlateFromText s).data ++ post ∧
        IsPlate (getPlateFromText s).data) ∧
    (getPlateFromText s = "" ↔ ∀ pre p post, s.data = pre ++ p ++ post → ¬ IsPlate p) ∧
    (getPlateFromText s ≠ "" →
      ∃ pre post, s.data = pre ++ (getPlateFromText s).data ++ post ∧
        ∀ pre2 p post2, s.data = pre2 ++ p ++ post2 → IsPlate p → pre.length ≤ pre2.length) := by
  have hemp : getPlateFromText s = "" ↔ findPlate s.data = [] := by
    constructor
    · intro h
      have := congrArg String.data h
      simpa [getPlateFromText] using this
    · intro h
      simp [getPlateFromText, h]
  have hdata : (getPlateFromText s).data = findPlate s.data := rfl
  rcases findPlate_spec s.data with ⟨he, hnone⟩ | ⟨pre, post, hl, hp, hleft⟩
  · refine ⟨Or.inl (hemp.mpr he), ⟨fun _ => hnone, fun _ => hemp.mpr he⟩, ?_⟩
    intro hne
    exact absurd (hemp.mpr he) hne
  · have hne : findPlate s.data ≠ [] := by
      intro h0
      rw [h0] at hp
      exact absurd hp.1 (by simp)
    refine ⟨Or.inr ⟨pre, post, by rw [hdata]; exact hl, by rw [hdata]; exact hp⟩, ⟨?_, ?_⟩, ?_⟩
    · intro h
      exact absurd (hemp.mp h) hne
    · intro hall
      exact absurd hp (hall pre _ post hl)
    · intro _
      exact ⟨pre, post, by rw [hdata]; exact hl, hleft⟩

/-! ## Listed-price extraction -/

/-- C9. For every text of a `p.list_price` element whose index names an existing record, the
callback returns and the `listPrice` it stores is made of ASCII digits only, is at
most six long, and is the first `min 6 n` digits of the text in their order, `n`
being the number of digits in the text. -/
theorem onListPrice_stores_leading_digits (s : State) (j : Nat) (text : String) (c : car)
    (h : carsGet s.cars (Itoa j) = some c) :
    ∃ s1 c1, onListPrice s j text = .ok s1 ∧ carsGet s1.cars (Itoa j) = some c1 ∧
      c1.listPrice.data =
        (text.data.filter isDigit09).take (min 6 (text.data.filter isDigit09).length) ∧
      (∀ ch ∈ c1.listPrice.data, isDigit09 ch = true) ∧
      c1.listPrice.length ≤ 6 := by
  refine ⟨_, _, onListPrice_ok s j text c h, carsGet_carsSet_same _ _ _, ?_, ?_, ?_⟩
  · show (extractPrice text).data = _
    rw [extractPrice_data]
    rcases Nat.le_total 6 (text.data.filter isDigit09).length with h6 | h6
    · rw [Nat.min_eq_left h6]
    · rw [Nat.min_eq_right h6, List.take_of_length_le h6, List.take_of_length_le (le_refl _)]
  · exact extractPrice_digits text
  · show (extractPrice text).data.length ≤ 6
    rw [extractPrice_data]
    simp

/-- Witness: a price of seven digits on the record of
listing 0 is stored cut to six. -/
theorem onListPrice_stores_leading_digits_witness :
    carsGet [("0", ({ link := "/a" } : car))] (Itoa (0 : Nat)) = some { link := "/a" } ∧
    ∃ s1 c1, onListPrice { cars := [("0", { link := "/a" })] } 0 "1 850 000 kr" = .ok s1 ∧
      carsGet s1.cars (Itoa (0 : Nat)) = some c1 ∧
      c1.listPrice.data =
        ("1 850 000 kr".data.filter isDigit09).take
          (min 6 ("1 850 000 kr".data.filter isDigit09).length) ∧
      (∀ ch ∈ c1.listPrice.data, isDigit09 ch = true) ∧
      c1.listPrice.length ≤ 6 :=
  ⟨by decide,
   onListPrice_stores_leading_digits { cars := [("0", { link := "/a" })] } 0 "1 850 000 kr"
     { link := "/a" } (by decide)⟩

/-! ## Export -/

theorem getFieldString_plate (c : car) : getFieldString c "plate" = c.plate := rfl

theorem csvRow_eq (c : car) :
    csvRow c = [c.plate, c.estPrice, c.listPrice, c.diff, c.link, c.modelId, c.distance,
      c.year, c.regdate] := rfl

theorem string_length_eq_zero (t : String) : t.length = 0 ↔ t = "" := by
  obtain ⟨l⟩ := t
  constructor
  · intro h
    have : l = [] := List.length_eq_zero.mp h
    subst this
    rfl
  · intro h
    rw [h]
    rfl

theorem csvDataRows_eq (cars : Cars) :
    csvDataRows cars =
      (cars.filter (fun e => decide (e.2.plate ≠ ""))).map (fun e => csvRow e.2) := by
  induction cars with
  | nil => rfl
  | cons e rest ih =>
    obtain ⟨k, c⟩ := e
    by_cases h : c.plate = ""
    · simp [csvDataRows, getFieldString_plate, string_length_eq_zero, h, ih]
    · simp [csvDataRows, getFieldString_plate, string_length_eq_zero, h, ih]

/-- C6. The rows `saveToCsv` writes are the header row followed by one row for each record
with a non-empty plate and none for a record with an empty plate, whatever its other
fields hold; visiting the entries in another order permutes the data rows; the
empty map gives the header row alone. -/
theorem saveToCsv_exports_plated_records (cars : Cars) :
    saveToCsv cars =
      headers :: (cars.filter (fun e => decide (e.2.plate ≠ ""))).map (fun e => csvRow e.2) ∧
    (∀ order : Cars, order.Perm cars →
      ∃ rows, saveToCsv order = headers :: rows ∧
        rows.Perm ((cars.filter (fun e => decide (e.2.plate ≠ ""))).map (fun e => csvRow e.2))) ∧
    (∀ k c, (k, c) ∈ cars → c.plate = "" → csvDataRows [(k, c)] = []) ∧
    saveToCsv [] = [headers] := by
  refine ⟨by rw [saveToCsv, csvDataRows_eq], ?_, ?_, rfl⟩
  · intro order hperm
    refine ⟨_, by rw [saveToCsv, csvDataRows_eq], ?_⟩
    exact (hperm.filter _).map _
  · intro k c _ hc
    simp [csvDataRows, getFieldString_plate, string_length_eq_zero, hc]

/-- C8. Every data row `saveToCsv` writes has nine columns: plate, estPrice, listPrice, diff,
link, modelId, distance, year, regdate of an exported record, in that order, under
the header row Plate, Estimated, Blocket, Diff, Link, Model Id, Distance, Year,
Reg Date column by column. -/
theorem saveToCsv_row_schema (cars : Cars) (row : List String)
    (h : row ∈ (saveToCsv cars).tail) :
    (saveToCsv cars).head? = some ["Plate", "Estimated", "Blocket", "Diff", "Link", "Model Id",
      "Distance", "Year", "Reg Date"] ∧
    row.length = 9 ∧
    ∃ k c, (k, c) ∈ cars ∧
      row = [c.plate, c.estPrice, c.listPrice, c.diff, c.link, c.modelId, c.distance,
        c.year, c.regdate] ∧
      headers.zip row = [("Plate", c.plate), ("Estimated", c.estPrice), ("Blocket", c.listPrice),
        ("Diff", c.diff), ("Link", c.link), ("Model Id", c.modelId), ("Distance", c.distance),
        ("Year", c.year), ("Reg Date", c.regdate)] := by
  have hrow : row ∈ csvDataRows cars := h
  rw [csvDataRows_eq] at hrow
  obtain ⟨e, he, hre⟩ := List.mem_map.mp hrow
  obtain ⟨k, c⟩ := e
  have hmem : (k, c) ∈ cars := (List.mem_filter.mp he).1
  have hr : row = [c.plate, c.estPrice, c.listPrice, c.diff, c.link, c.modelId, c.distance,
      c.year, c.regdate] := by rw [← hre, csvRow_eq]
  refine ⟨rfl, by rw [hr]; rfl, k, c, hmem, hr, by rw [hr]; rfl⟩

/-- Witness: the row of one enriched record. -/
theorem saveToCsv_row_schema_witness :
    (["ABC123", "201500", "185000", "16500", "/a", "m7", "1200", "2014", "2014-03-01"] ∈
      (saveToCsv [("0", enrichedCar)]).tail) ∧
    (["ABC123", "201500", "185000", "16500", "/a", "m7", "1200", "2014",
      "2014-03-01"] : List String).length = 9 :=
  ⟨by decide,
   (saveToCsv_row_schema [("0", enrichedCar)]
      ["ABC123", "201500", "185000", "16500", "/a", "m7", "1200", "2014", "2014-03-01"]
      (by decide)).2.1⟩

/-! ## The price differential -/

theorem Atoi_range (t : String) (v : Int) (h : Atoi t = (v, true)) :
    -(2 ^ 63) ≤ v ∧ v < 2 ^ 63 := by
  unfold Atoi ParseInt at h
  simp only at h
  split at h
  · simp at h
  · split at h
    · simp at h
    · rename_i un e hne hun
      split at h
      · simp at h
      · split at h
        · simp at h
        · rename_i h1 h2
          simp only [Prod.mk.injEq, Option.isNone_none, and_true] at h
          cases hneg : (t.data.head? == some '-')
          · simp [hneg] at h h1 h2
            omega
          · simp [hneg] at h h1 h2
            omega

theorem Atoi_nonneg_of_digit_head (t : String)
    (hd : ∀ ch ∈ t.data, isDigit09 ch = true) : 0 ≤ (Atoi t).1 := by
  have hneg : (t.data.head? == some '-') = false := by
    cases hdata : t.data with
    | nil => rfl
    | cons c cs =>
      have hc : isDigit09 c = true := hd c (by rw [hdata]; simp)
      have : c ≠ '-' := by
        intro h0
        rw [h0] at hc
        exact absurd hc (by decide)
      simpa using this
  unfold Atoi ParseInt
  simp only [hneg]
  split
  · simp
  · split
    · simp
    · split
      · simp
      · simp
theorem wrap64_of_range (x : Int) (h1 : -(2 ^ 63) ≤ x) (h2 : x < 2 ^ 63) : wrap64 x = x := by
  unfold wrap64
  omega

/-- C3, at the failing input: the first listing is discovered and its price element is read
before any estimate exists. The estimated price is empty and does not parse, yet
the price callback writes the diff `-185000` instead of leaving it empty; after
the plate callback has fetched the estimate 201500, the exported row still
carries `-185000` in the Diff column. -/
theorem diff_written_without_estimate :
    (∃ s1 c1, run initState [.itemLink 0 "t" "/a", .listPrice 0 "185 000 kr"] = .ok s1 ∧
      carsGet s1.cars (Itoa (0 : Nat)) = some c1 ∧ c1.estPrice = "" ∧
      (Atoi c1.estPrice).2 = false ∧ c1.listPrice = "185000" ∧ c1.diff = "-185000" ∧
      c1.diff ≠ "") ∧
    (∃ s2, run initState [.itemLink 0 "t" "/a", .listPrice 0 "185 000 kr",
        .bodyAside "Reg.nr ABC123" (.vehicle "m7" 1200 "2014" "2014-03-01")
          (.price "201500")] = .ok s2 ∧
      saveToCsv s2.cars = [headers,
        ["ABC123", "201500", "185000", "-185000", "/a", "m7", "1200", "2014", "2014-03-01"]]) :=
  ⟨⟨_, _, rfl, rfl, rfl, rfl, rfl, rfl, by decide⟩, ⟨_, rfl, rfl⟩⟩

/-- Counterexample to C4: with the estimated price `-9223372036854775808` (which parses) and
the listed price 1, the diff written is `9223372036854775807`, not the decimal
string of `E - P`. -/
theorem diff_wraps_below_lowest_int :
    ∃ s c s1 c1,
      run initState [.itemLink 0 "t" "/a",
        .bodyAside "ABC123" (.vehicle "m7" 1200 "2014" "2014-03-01")
          (.price "-9223372036854775808")] = .ok s ∧
      carsGet s.cars (Itoa (0 : Nat)) = some c ∧
      Atoi c.estPrice = (-9223372036854775808, true) ∧
      Atoi (extractPrice "1 kr") = (1, true) ∧
      onListPrice s 0 "1 kr" = .ok s1 ∧
      carsGet s1.cars (Itoa (0 : Nat)) = some c1 ∧
      c1.diff = "9223372036854775807" ∧
      c1.diff ≠ Itoa (-9223372036854775808 - 1) :=
  ⟨_, _, _, _, rfl, rfl, rfl, rfl, rfl, rfl, rfl, by decide⟩

/-- C4, amended. For a price-extraction event on an existing record whose estimated price
parses as `E` and whose extracted listed price parses as `P`, the diff written is the
decimal string of `E - P` computed in 64-bit `int` arithmetic; it is the decimal
string of `E - P` itself whenever `E - P` is not below the lowest `int`. -/
theorem onListPrice_diff_of_parsed_prices (s : State) (j : Nat) (text : String) (c : car)
    (E P : Int) (h : carsGet s.cars (Itoa j) = some c)
    (hE : Atoi c.estPrice = (E, true)) (hP : Atoi (extractPrice text) = (P, true)) :
    ∃ s1 c1, onListPrice s j text = .ok s1 ∧ carsGet s1.cars (Itoa j) = some c1 ∧
      c1.diff = Itoa (wrap64 (E - P)) ∧
      (-(2 ^ 63) ≤ E - P → c1.diff = Itoa (E - P)) := by
  have hd : ({ c with
      listPrice := extractPrice text
      diff := Itoa (wrap64 ((Atoi c.estPrice).1 - (Atoi (extractPrice text)).1)) } : car).diff
      = Itoa (wrap64 (E - P)) := by
    show Itoa _ = _
    rw [hE, hP]
  refine ⟨_, _, onListPrice_ok s j text c h, carsGet_carsSet_same _ _ _, hd, ?_⟩
  intro hlow
  rw [hd]
  have hEr := Atoi_range _ _ hE
  have hP0 : 0 ≤ P := by
    have := Atoi_nonneg_of_digit_head (extractPrice text) (extractPrice_digits text)
    rw [hP] at this
    exact this
  rw [wrap64_of_range _ hlow (by omega)]

/-- Witness: listed price 185000 and estimated price
201500 give the diff 16500. -/
theorem onListPrice_diff_of_parsed_prices_witness :
    ∃ s1 c1, onListPrice { cars := [("0", enrichedCar)] } 0 "185 000 kr" = .ok s1 ∧
      carsGet s1.cars (Itoa (0 : Nat)) = some c1 ∧
      c1.diff = Itoa (wrap64 (201500 - 185000)) ∧
      (-(2 ^ 63) ≤ (201500 : Int) - 185000 → c1.diff = Itoa (201500 - 185000)) ∧
      Itoa (201500 - 185000) = "16500" :=
  have w := onListPrice_diff_of_parsed_prices { cars := [("0", enrichedCar)] } 0 "185 000 kr"
    enrichedCar 201500 185000 (by decide) (by decide) (by decide)
  match w with
  | ⟨s1, c1, h1, h2, h3, h4⟩ => ⟨s1, c1, h1, h2, h3, h4, by decide⟩

/-! ## The plate callback and the valuation client -/

theorem plate_length_pos (t : String) : t.length > 0 ↔ t ≠ "" := by
  rw [Ne, ← string_length_eq_zero]
  omega

theorem getCarInfo_failed (s : State) (k : String) (reply : RegistryReply) (c : car)
    (hc : carsGet s.cars k = some c) (hf : reply.failed = true) :
    ∃ s1, getCarInfo s k reply = .fatal s1 ∧ s1.cars = s.cars ∧ s1.out = s.out ∧
      s1.activeIndex = s.activeIndex ∧
      (s1.requests = s.requests ∨ s1.requests = s.requests ++ [registryUrl c]) := by
  cases reply with
  | vehicle m d y r => simp [RegistryReply.failed] at hf
  | reqErr => exact ⟨s, by simp [getCarInfo, hc], rfl, rfl, rfl, Or.inl rfl⟩
  | getErr =>
    exact ⟨{ s with requests := s.requests ++ [registryUrl c] }, by simp [getCarInfo, hc],
      rfl, rfl, rfl, Or.inr rfl⟩
  | readErr =>
    exact ⟨{ s with requests := s.requests ++ [registryUrl c] }, by simp [getCarInfo, hc],
      rfl, rfl, rfl, Or.inr rfl⟩
  | jsonErr =>
    exact ⟨{ s with requests := s.requests ++ [registryUrl c] }, by simp [getCarInfo, hc],
      rfl, rfl, rfl, Or.inr rfl⟩

theorem onBodyAside_no_plate (s : State) (text : String) (reg : RegistryReply)
    (val : PriceReply) (h : getPlateFromText text = "") :
    onBodyAside s text reg val = .ok s := by
  simp [onBodyAside, h]

theorem onBodyAside_plate (s : State) (text : String) (reg : RegistryReply)
    (val : PriceReply) (c : car) (h : getPlateFromText text ≠ "")
    (hc : carsGet s.cars s.activeIndex = some c) :
    onBodyAside s text reg val =
      (getCarInfo { s with
          out := s.out ++ [.plateFound (getPlateFromText text)]
          cars := carsSet s.cars s.activeIndex { c with plate := getPlateFromText text } }
        s.activeIndex reg).andThen (fun s3 => getCarPrice s3 s3.activeIndex val) := by
  have hl : (getPlateFromText text).length > 0 := (plate_length_pos _).mpr h
  simp [onBodyAside, hl, hc]

theorem onBodyAside_unknown (s : State) (text : String) (reg : RegistryReply)
    (val : PriceReply) (h : getPlateFromText text ≠ "")
    (hc : carsGet s.cars s.activeIndex = none) :
    onBodyAside s text reg val =
      .panicked { s with out := s.out ++ [.plateFound (getPlateFromText text)] } := by
  have hl : (getPlateFromText text).length > 0 := (plate_length_pos _).mpr h
  simp [onBodyAside, hl, hc]

/-- Counterexample to C7: a registry lookup that times out does not let `getCarInfo` return;
the run ends in `log.Fatal`. -/
theorem registry_timeout_ends_run :
    (∃ s1, getCarInfo { cars := [("0", { link := "/a", plate := "ABC123" })] } "0" .getErr
        = .fatal s1) ∧
    (∃ s1, run initState [.itemLink 0 "t" "/a",
        .bodyAside "Reg.nr ABC123" .getErr (.price "201500")] = .fatal s1) ∧
    (∀ s1, run initState [.itemLink 0 "t" "/a",
        .bodyAside "Reg.nr ABC123" .getErr (.price "201500")] ≠ .ok s1) :=
  ⟨⟨_, rfl⟩, ⟨_, rfl⟩, by intro s1 h; cases h⟩

/-- C7, amended. When the registry lookup for the active record fails, `getCarInfo` ends the run
through `log.Fatal`; the record keeps the plate just written and its modelId,
distance, year, regdate and estPrice are as before the event (absent when they were
absent); no valuation request is sent and no valuation price is printed. -/
theorem registry_failure_ends_run (s : State) (text : String) (reg : RegistryReply)
    (val : PriceReply) (c : car) (hp : getPlateFromText text ≠ "")
    (hc : carsGet s.cars s.activeIndex = some c) (hf : reg.failed = true) :
    (∃ s0, getCarInfo s s.activeIndex reg = .fatal s0 ∧ s0.cars = s.cars) ∧
    ∃ s1 c1, onBodyAside s text reg val = .fatal s1 ∧
      carsGet s1.cars s.activeIndex = some c1 ∧
      c1.plate = getPlateFromText text ∧
      c1.modelId = c.modelId ∧ c1.distance = c.distance ∧ c1.year = c.year ∧
      c1.regdate = c.regdate ∧ c1.estPrice = c.estPrice ∧
      (s1.requests = s.requests ∨
        s1.requests = s.requests ++ [registryUrl { c with plate := getPlateFromText text }]) ∧
      s1.out = s.out ++ [.plateFound (getPlateFromText text)] := by
  constructor
  · obtain ⟨s0, h0, h1, _⟩ := getCarInfo_failed s s.activeIndex reg c hc hf
    exact ⟨s0, h0, h1⟩
  · obtain ⟨s1, h1, hcars, hout, _, hreq⟩ :=
      getCarInfo_failed
        { s with
          out := s.out ++ [.plateFound (getPlateFromText text)]
          cars := carsSet s.cars s.activeIndex { c with plate := getPlateFromText text } }
        s.activeIndex reg { c with plate := getPlateFromText text }
        (carsGet_carsSet_same _ _ _) hf
    refine ⟨s1, { c with plate := getPlateFromText text }, ?_, ?_, rfl, rfl, rfl, rfl, rfl, rfl,
      hreq, hout⟩
    · rw [onBodyAside_plate s text reg val c hp hc, h1]
      rfl
    · rw [hcars]
      exact carsGet_carsSet_same _ _ _

/-- Witness: a timeout on the record of listing 0. -/
theorem registry_failure_ends_run_witness :
    getPlateFromText "Reg.nr ABC123" ≠ "" ∧
    ∃ s1 c1, onBodyAside { cars := [("0", { link := "/a" })] } "Reg.nr ABC123" .getErr
        (.price "201500") = .fatal s1 ∧
      carsGet s1.cars "0" = some c1 ∧ c1.plate = "ABC123" ∧ c1.modelId = "" ∧
      c1.estPrice = "" :=
  have w := registry_failure_ends_run { cars := [("0", { link := "/a" })] } "Reg.nr ABC123"
    .getErr (.price "201500") { link := "/a" } (by decide) (by decide) (by decide)
  match w.2 with
  | ⟨s1, c1, h1, h2, h3, h4, _, _, _, h8, _, _⟩ => ⟨by decide, s1, c1, h1, h2, h3, h4, h8⟩

/-! ## Events for a key without a record -/

/-- Counterexample to C5: with no record under key 0, the price callback and the plate callback
do not return; the run ends in a nil-pointer panic. -/
theorem unknown_key_panics :
    carsGet initState.cars (Itoa (0 : Nat)) = none ∧
    carsGet initState.cars initState.activeIndex = none ∧
    onListPrice initState 0 "185 000 kr" = .panicked initState ∧
    onBodyAside initState "Reg.nr ABC123" (.vehicle "m7" 1200 "2014" "2014-03-01")
        (.price "201500")
      = .panicked { initState with out := [.plateFound "ABC123"] } :=
  ⟨rfl, rfl, rfl, rfl⟩

/-- C5, amended. A price-extraction or plate-extraction event whose key has no record leaves the
map of records exactly as it was, sends no lookup and never ends in `log.Fatal`;
whenever the callback returns, as it does for a plate event whose text holds no
plate, the whole state, printed output included, is unchanged, so nothing is
reported. -/
theorem unknown_key_event_mutates_nothing (s : State) (e : Event)
    (hkey : carsGet s.cars (e.target s) = none) (hev : e.isExtraction = true) :
    (step s e).state.cars = s.cars ∧
    (step s e).state.requests = s.requests ∧
    (step s e).state.activeIndex = s.activeIndex ∧
    (∀ s1, step s e ≠ .fatal s1) ∧
    (∀ s1, step s e = .ok s1 → s1 = s) ∧
    (∀ text reg val, e = .bodyAside text reg val → getPlateFromText text = "" →
      step s e = .ok s) := by
  cases e with
  | itemLink i text link => simp [Event.isExtraction] at hev
  | listPrice j text =>
    have h : step s (.listPrice j text) = .panicked s := by
      simp only [Event.target] at hkey
      simp [step, onListPrice, hkey]
    rw [h]
    simp [Outcome.state]
  | bodyAside text reg val =>
    simp only [Event.target] at hkey
    by_cases hp : getPlateFromText text = ""
    · have h : step s (.bodyAside text reg val) = .ok s := onBodyAside_no_plate s text reg val hp
      rw [h]
      simp [Outcome.state]
    · have h : step s (.bodyAside text reg val) = _ := onBodyAside_unknown s text reg val hp hkey
      rw [h]
      simp [Outcome.state]
      intro hp2
      exact absurd hp2 hp

/-- Witness: the store holds the enriched record of listing 0 and a price element with index 1
arrives, for which no record exists; the record of listing 0 is still there,
unchanged. -/
theorem unknown_key_event_mutates_nothing_witness :
    carsGet [("0", enrichedCar)] (Itoa (1 : Nat)) = none ∧
    (step { cars := [("0", enrichedCar)] } (.listPrice 1 "185 000 kr")).state.cars
      = [("0", enrichedCar)] ∧
    (step { cars := [("0", enrichedCar)] } (.listPrice 1 "185 000 kr")).state.requests = [] ∧
    carsGet (step { cars := [("0", enrichedCar)] } (.listPrice 1 "185 000 kr")).state.cars "0"
      = some enrichedCar :=
  have w := unknown_key_event_mutates_nothing { cars := [("0", enrichedCar)] }
    (.listPrice 1 "185 000 kr") (by decide) (by decide)
  ⟨by decide, w.1, w.2.1, by rw [w.1]; decide⟩

/-! ## Overwriting -/

theorem onBodyAside_ok_inv (s s1 : State) (text : String) (reg : RegistryReply)
    (val : PriceReply) (hp : getPlateFromText text ≠ "")
    (h : onBodyAside s text reg val = .ok s1) :
    ∃ c m d y r p, carsGet s.cars s.activeIndex = some c ∧ reg = .vehicle m d y r ∧
      val = .price p ∧
      s1.cars = carsSet (carsSet (carsSet s.cars s.activeIndex
          { c with plate := getPlateFromText text })
          s.activeIndex
          { c with plate := getPlateFromText text, modelId := m, distance := Itoa d,
                   year := y, regdate := r })
          s.activeIndex
          { c with plate := getPlateFromText text, modelId := m, distance := Itoa d,
                   year := y, regdate := r, estPrice := p } := by
  cases hc : carsGet s.cars s.activeIndex with
  | none =>
    rw [onBodyAside_unknown s text reg val hp hc] at h
    cases h
  | some c =>
    rw [onBodyAside_plate s text reg val c hp hc] at h
    cases reg with
    | vehicle m d y r =>
      cases val with
      | price p =>
        refine ⟨c, m, d, y, r, p, rfl, rfl, rfl, ?_⟩
        simp [getCarInfo, getCarPrice, Outcome.andThen, carsGet_carsSet_same] at h
        rw [← h]
      | reqErr => simp [getCarInfo, getCarPrice, Outcome.andThen, carsGet_carsSet_same] at h
      | getErr => simp [getCarInfo, getCarPrice, Outcome.andThen, carsGet_carsSet_same] at h
      | readErr => simp [getCarInfo, getCarPrice, Outcome.andThen, carsGet_carsSet_same] at h
      | jsonErr => simp [getCarInfo, getCarPrice, Outcome.andThen, carsGet_carsSet_same] at h
    | reqErr => simp [getCarInfo, Outcome.andThen, carsGet_carsSet_same] at h
    | getErr => simp [getCarInfo, Outcome.andThen, carsGet_carsSet_same] at h
    | readErr => simp [getCarInfo, Outcome.andThen, carsGet_carsSet_same] at h
    | jsonErr => simp [getCarInfo, Outcome.andThen, carsGet_carsSet_same] at h

/-- Counterexample to C2: a second price event replaces a listed price that was already set. -/
theorem listPrice_is_overwritten :
    ∃ s1 s2 c1 c2,
      run initState [.itemLink 0 "t" "/a", .listPrice 0 "100 000 kr"] = .ok s1 ∧
      step s1 (.listPrice 0 "200 000 kr") = .ok s2 ∧
      carsGet s1.cars "0" = some c1 ∧ carsGet s2.cars "0" = some c2 ∧
      c1.listPrice = "100000" ∧ c2.listPrice = "200000" ∧ c2.listPrice ≠ c1.listPrice :=
  ⟨_, _, _, _, rfl, rfl, rfl, rfl, rfl, rfl, by decide⟩

/-- C2, amended. Fields are overwritten, not write-once: an event that returns changes at most
one record and stores its new values there whatever was set. Discovery replaces
the record under its index by one holding only the link; a price event stores the
newly extracted listed price in one existing record and keeps that record's
link, plate, estPrice, modelId, distance, year and regdate; a plate event with a
plate sets plate, modelId, distance, year, regdate and estPrice of the active
record and keeps link, listPrice and diff; a plate event without a plate changes
nothing. -/
theorem step_overwrites_only_its_fields (s s1 : State) (e : Event)
    (h : step s e = .ok s1) :
    (∀ i text link, e = .itemLink i text link →
      carsGet s1.cars (Itoa i) = some { link := link } ∧
      ∀ k, k ≠ Itoa i → carsGet s1.cars k = carsGet s.cars k) ∧
    (∀ j text, e = .listPrice j text → ∃ k c c1,
      carsGet s.cars k = some c ∧ carsGet s1.cars k = some c1 ∧
      c1.listPrice = extractPrice text ∧
      c1.link = c.link ∧ c1.plate = c.plate ∧ c1.estPrice = c.estPrice ∧
      c1.modelId = c.modelId ∧ c1.distance = c.distance ∧ c1.year = c.year ∧
      c1.regdate = c.regdate ∧
      ∀ k2, k2 ≠ k → carsGet s1.cars k2 = carsGet s.cars k2) ∧
    (∀ text reg val, e = .bodyAside text reg val → getPlateFromText text ≠ "" →
      ∃ c m d y r p, carsGet s.cars s.activeIndex = some c ∧ reg = .vehicle m d y r ∧
        val = .price p ∧
        carsGet s1.cars s.activeIndex = some { c with
          plate := getPlateFromText text
          modelId := m
          distance := Itoa d
          year := y
          regdate := r
          estPrice := p } ∧
        ∀ k, k ≠ s.activeIndex → carsGet s1.cars k = carsGet s.cars k) ∧
    (∀ text reg val, e = .bodyAside text reg val → getPlateFromText text = "" → s1 = s) := by
  cases e with
  | itemLink i text link =>
    simp only [step, onItemLink, Outcome.ok.injEq] at h
    subst h
    refine ⟨?_, ?_, ?_, ?_⟩
    · intro i2 t2 l2 he
      cases he
      refine ⟨carsGet_carsSet_same _ _ _, ?_⟩
      intro k hk
      exact carsGet_carsSet_other _ _ _ _ (Ne.symm hk)
    · intro j t2 he
      cases he
    · intro t2 reg val he
      cases he
    · intro t2 reg val he
      cases he
  | listPrice j text =>
    cases hc : carsGet s.cars (Itoa j) with
    | none =>
      simp [step, onListPrice, hc] at h
    | some c =>
      have h2 := onListPrice_ok s j text c hc
      simp only [step] at h
      rw [h2] at h
      simp only [Outcome.ok.injEq] at h
      subst h
      refine ⟨?_, ?_, ?_, ?_⟩
      · intro i2 t2 l2 he
        cases he
      · intro j2 t2 he
        cases he
        refine ⟨Itoa j, c, _, hc, carsGet_carsSet_same _ _ _, rfl, rfl, rfl, rfl, rfl, rfl, rfl,
          rfl, ?_⟩
        intro k2 hk
        exact carsGet_carsSet_other _ _ _ _ (Ne.symm hk)
      · intro t2 reg val he
        cases he
      · intro t2 reg val he
        cases he
  | bodyAside text reg val =>
    simp only [step] at h
    refine ⟨?_, ?_, ?_, ?_⟩
    · intro i2 t2 l2 he
      cases he
    · intro j2 t2 he
      cases he
    · intro t2 reg2 val2 he hp
      cases he
      obtain ⟨c, m, d, y, r, p, hc, hr, hv, hcars⟩ := onBodyAside_ok_inv s s1 text reg val hp h
      refine ⟨c, m, d, y, r, p, hc, hr, hv, by rw [hcars]; exact carsGet_carsSet_same _ _ _, ?_⟩
      intro k hk
      rw [hcars, carsGet_carsSet_other _ _ _ _ (Ne.symm hk),
        carsGet_carsSet_other _ _ _ _ (Ne.symm hk),
        carsGet_carsSet_other _ _ _ _ (Ne.symm hk)]
    · intro t2 reg2 val2 he hp
      cases he
      rw [onBodyAside_no_plate s text reg val hp] at h
      simp only [Outcome.ok.injEq] at h
      exact h.symm

/-- Witness: a second price event on a store holding the enriched record of listing 0 and the
fresh record of listing 1; one record takes the new listed price and keeps its
other fields, the other record is untouched. -/
theorem step_overwrites_only_its_fields_witness :
    step { cars := [("0", enrichedCar), ("1", { link := "/b" })] } (.listPrice 0 "200 000 kr")
      = .ok { cars := [("0", { enrichedCar with listPrice := "200000", diff := "1500" }),
                       ("1", { link := "/b" })],
              out := [.blocketPrice "200000"] } ∧
    ∃ k c c1, carsGet [("0", enrichedCar), ("1", { link := "/b" })] k = some c ∧
      carsGet [("0", { enrichedCar with listPrice := "200000", diff := "1500" }),
        ("1", ({ link := "/b" } : car))] k = some c1 ∧
      c1.listPrice = extractPrice "200 000 kr" ∧
      c1.link = c.link ∧ c1.plate = c.plate ∧ c1.estPrice = c.estPrice ∧
      c1.modelId = c.modelId ∧ c1.distance = c.distance ∧ c1.year = c.year ∧
      c1.regdate = c.regdate ∧
      ∀ k2, k2 ≠ k →
        carsGet [("0", { enrichedCar with listPrice := "200000", diff := "1500" }),
          ("1", ({ link := "/b" } : car))] k2
        = carsGet [("0", enrichedCar), ("1", { link := "/b" })] k2 :=
  ⟨by decide,
   (step_overwrites_only_its_fields { cars := [("0", enrichedCar), ("1", { link := "/b" })] }
      { cars := [("0", { enrichedCar with listPrice := "200000", diff := "1500" }),
                 ("1", { link := "/b" })],
        out := [.blocketPrice "200000"] }
      (.listPrice 0 "200 000 kr") (by decide)).2.1 0 "200 000 kr" rfl⟩

/-! ## Key threading -/

/-- C1, at the failing input: two listings are crawled one after the other, each page holding
one price element (index 0) and a plate. The price of listing 1 is written to
record 0; record 1 gets the plate but never a listed price. -/
theorem price_of_second_listing_lands_on_record_0 :
    ∃ s1 c0 c1,
      run initState [
        .itemLink 0 "first" "/a",
        .listPrice 0 "150 000 kr",
        .bodyAside "Reg.nr AAA111" (.vehicle "m1" 900 "2015" "2015-01-01") (.price "160000"),
        .itemLink 1 "second" "/b",
        .listPrice 0 "185 000 kr",
        .bodyAside "Reg.nr ABC123" (.vehicle "m7" 1200 "2014" "2014-03-01") (.price "201500")]
        = .ok s1 ∧
      carsGet s1.cars (Itoa (1 : Nat)) = some c1 ∧
      c1.link = "/b" ∧ c1.plate = "ABC123" ∧ c1.listPrice = "" ∧
      extractPrice "185 000 kr" = "185000" ∧
      carsGet s1.cars (Itoa (0 : Nat)) = some c0 ∧
      c0.link = "/a" ∧ c0.plate = "AAA111" ∧ c0.listPrice = "185000" :=
  ⟨_, _, _, rfl, rfl, rfl, rfl, rfl, rfl, rfl, rfl, rfl, rfl⟩

end CarFinder
